import Mathlib

/-!
Verification development for the xTool laser integration
(`xtool_laser/api.py`, `xtool_laser/coordinator.py`,
`custom_components/xtool_laser/__init__.py`).

The Python code is shallowly embedded: JSON/Python values become the
inductive `PyVal`, dictionaries become insertion-ordered association
lists, each `async` HTTP method becomes a pure function from the raw
device response to `Except PyErr`, and the background websocket task
becomes an explicit state machine stepped at its `await` points.
-/

namespace XTool

/-- Python values as they appear after `json.loads` / inside the client:
`None`, `bool`, `int`, `float` (modelled exactly as a rational, since every
JSON decimal literal is representable), `str`, `list` and `dict`
(insertion-ordered key/value list, as CPython guarantees). -/
inductive PyVal where
  | none
  | bool (b : Bool)
  | int (n : Int)
  | float (q : Rat)
  | str (s : String)
  | list (xs : List PyVal)
  | dict (kvs : List (String × PyVal))

/-- An insertion-ordered Python dict with string keys. -/
abbrev PyDict := List (String × PyVal)

/-- Lookup in a Python dict: first (unique) entry with the given key. -/
def dictGet : PyDict → String → Option PyVal
  | [], _ => Option.none
  | (k, v) :: rest, key => if k = key then some v else dictGet rest key

/-- Python `d.get(key, default)`. -/
def dictGetD (d : PyDict) (key : String) (dflt : PyVal) : PyVal :=
  (dictGet d key).getD dflt

/-- Python `key in d`. -/
def dictHas (d : PyDict) (key : String) : Bool :=
  (dictGet d key).isSome

/-- Python `d[key] = v`: replace in place when the key exists (keeping its
position, as CPython dicts do), otherwise append at the end. -/
def dictSet : PyDict → String → PyVal → PyDict
  | [], key, v => [(key, v)]
  | (k, w) :: rest, key, v =>
      if k = key then (k, v) :: rest else (k, w) :: dictSet rest key v

/-- Python truthiness (`if x:`). -/
def pyTruthy : PyVal → Bool
  | .none => false
  | .bool b => b
  | .int n => n != 0
  | .float q => q != 0
  | .str s => s ≠ ""
  | .list xs => !xs.isEmpty
  | .dict d => !d.isEmpty

/-- Python `v == "lit"` for a string literal: only a `str` with the same
characters compares equal (no numeric type is ever equal to a `str`). -/
def valEqStr (v : PyVal) (s : String) : Bool :=
  match v with
  | .str t => t = s
  | _ => false

/-- Python `v == n` for an `int` literal: numeric cross-type equality
(`True == 1`, `100000.0 == 100000`), never equal for non-numbers. -/
def pyEqInt (v : PyVal) (n : Int) : Bool :=
  match v with
  | .int m => m = n
  | .bool b => (if b then (1 : Int) else 0) = n
  | .float q => q = (n : Rat)
  | _ => false

/-- Accumulate the value of a run of decimal digits; fails on a non-digit. -/
def digitsValGo : List Char → Nat → Option Nat
  | [], acc => some acc
  | c :: rest, acc =>
      if c.isDigit then digitsValGo rest (acc * 10 + (c.toNat - 48)) else Option.none

/-- Value of a nonempty all-digit character run. -/
def digitsVal : List Char → Option Nat
  | [] => Option.none
  | c :: rest => digitsValGo (c :: rest) 0

/-- Whitespace characters removed by Python `str.strip()` (the common
ASCII ones; exotic unicode whitespace never occurs in device payloads). -/
def isSpaceChar (c : Char) : Bool :=
  (c = ' ') || (c = '\t') || (c = '\n') || (c = '\r')

/-- Strip leading and trailing whitespace from a character run. -/
def stripChars (cs : List Char) : List Char :=
  ((cs.dropWhile isSpaceChar).reverse.dropWhile isSpaceChar).reverse

/-- Model of Python `s.strip()`. -/
def pyStrip (s : String) : String :=
  String.mk (stripChars s.toList)

/-- Split a character list on the dot character. -/
def splitDots : List Char → List (List Char)
  | [] => [[]]
  | c :: rest =>
      match splitDots rest with
      | [] => [[]]
      | g :: gs => if c = '.' then [] :: g :: gs else (c :: g) :: gs

/-- Model of Python `int(s)` on a trimmed string: an optional sign followed
by decimal digits (Python additionally allows underscores and other bases,
which the device protocol never produces). -/
def parseIntStr (s : String) : Option Int :=
  match stripChars s.toList with
  | '-' :: rest => (digitsVal rest).map (fun n => -(n : Int))
  | '+' :: rest => (digitsVal rest).map (fun n => (n : Int))
  | cs => (digitsVal cs).map (fun n => (n : Int))

/-- Model of Python `float(s)` on a trimmed string: an optional sign,
integer digits and an optional fractional part (exponent notation and
`inf`/`nan`, never produced by the device protocol, are not modelled). -/
def parseFloatStr (s : String) : Option Rat :=
  let unsigned : List Char → Option Rat := fun cs =>
    match splitDots cs with
    | [ds] => (digitsVal ds).map (fun n => (n : Rat))
    | [ds, fs] =>
        match digitsVal ds, digitsVal fs with
        | some d, some f => some ((d : Rat) + (f : Rat) / (10 : Rat) ^ fs.length)
        | _, _ => Option.none
    | _ => Option.none
  match stripChars s.toList with
  | '-' :: rest => (unsigned rest).map (fun q => -q)
  | '+' :: rest => unsigned rest
  | cs => unsigned cs

/-- The ways one HTTP exchange can fail inside `_get_json`. -/
inductive HttpFailure where
  | timeout
  | transportError
  | badStatus (code : Nat)
  | invalidJson
deriving DecidableEq

/-- Exceptions the embedded code can raise.  `apiError` is `XToolApiError`
(the spec's ProtocolError); the others are ordinary Python exceptions. -/
inductive PyErr where
  | apiError (cause : HttpFailure)
  | attributeError
  | typeError
  | valueError
deriving DecidableEq

/-- Model of CPython `str()` on a float.  The integral case renders exactly as
CPython does (`str(45.0) = "45.0"`); for non-integral values CPython's
shortest-roundtrip algorithm is abstracted by the rational's own rendering.
No theorem below depends on the non-integral case. -/
def floatRepr (q : Rat) : String :=
  if q.den = 1 then toString q.num ++ ".0" else toString q

/-- A single quote character, as used by Python `repr` of a string. -/
def quoteMark : String :=
  String.singleton (Char.ofNat 39)

/-- Python `repr` of a string (escaping of special characters inside the
string is not modelled; device payload strings contain none). -/
def quoteStr (s : String) : String :=
  quoteMark ++ s ++ quoteMark

mutual

/-- Python `repr()` of a value, used by `str()` inside containers. -/
def pyRepr : PyVal → String
  | .none => "None"
  | .bool true => "True"
  | .bool false => "False"
  | .int n => toString n
  | .float q => floatRepr q
  | .str s => quoteStr s
  | .list xs => "[" ++ pyReprSeq xs ++ "]"
  | .dict kvs => "\x7b" ++ pyReprDict kvs ++ "\x7d"

/-- Comma-separated `repr`s of list elements. -/
def pyReprSeq : List PyVal → String
  | [] => ""
  | [v] => pyRepr v
  | v :: rest => pyRepr v ++ ", " ++ pyReprSeq rest

/-- Comma-separated `repr`s of dict entries. -/
def pyReprDict : List (String × PyVal) → String
  | [] => ""
  | [(k, v)] => quoteStr k ++ ": " ++ pyRepr v
  | (k, v) :: rest => quoteStr k ++ ": " ++ pyRepr v ++ ", " ++ pyReprDict rest

end

/-- Python `str()` of a value: identity on strings, `repr` otherwise. -/
def pyStr : PyVal → String
  | .str s => s
  | v => pyRepr v

/-- Python `int()` truncation of a float toward zero. -/
def ratTrunc (q : Rat) : Int :=
  Int.tdiv q.num (q.den : Int)

/-- Python `float(v)`: floats pass through, ints and bools widen, strings
parse as decimal literals (`ValueError` when unparsable), everything else
raises `TypeError`. -/
def pyFloat : PyVal → Except PyErr Rat
  | .float q => .ok q
  | .int n => .ok (n : Rat)
  | .bool b => .ok (if b then 1 else 0)
  | .str s =>
      match parseFloatStr s with
      | some q => .ok q
      | Option.none => .error .valueError
  | _ => .error .typeError

/-- Python `int(v)`: ints pass through, floats truncate toward zero, bools
widen, strings parse as integer literals (`ValueError` when unparsable,
including `"4.5"`), everything else raises `TypeError`. -/
def pyInt : PyVal → Except PyErr Int
  | .int n => .ok n
  | .float q => .ok (ratTrunc q)
  | .bool b => .ok (if b then 1 else 0)
  | .str s =>
      match parseIntStr s with
      | some n => .ok n
      | Option.none => .error .valueError
  | _ => .error .typeError

/-- Python `payload.get(key)` where `payload` is an arbitrary decoded JSON
value: an `AttributeError` when the value is not a dict. -/
def pyGet (v : PyVal) (key : String) : Except PyErr (Option PyVal) :=
  match v with
  | .dict d => .ok (dictGet d key)
  | _ => .error .attributeError

/-- The raw outcome of one HTTP GET to the device, as seen by `_get_json`:
a timeout, a transport-level `ClientError`, or a completed response carrying
its (post-redirect) status code and its body decoded as JSON (`Option.none`
when the body does not decode). -/
inductive RawResp where
  | timeout
  | transportError
  | resp (status : Nat) (body : Option PyVal)

/-- Embeds `XToolApiClient._get_json`: `response.raise_for_status()` raises
`ClientResponseError` (a `ClientError`) exactly when the status is >= 400;
an undecodable body raises `ValueError` from `response.json`; timeouts,
`ClientError` and `ValueError` are all re-raised as `XToolApiError`. -/
def getJson : RawResp → Except PyErr PyVal
  | .timeout => .error (.apiError .timeout)
  | .transportError => .error (.apiError .transportError)
  | .resp status body =>
      if 400 ≤ status then .error (.apiError (.badStatus status))
      else
        match body with
        | Option.none => .error (.apiError .invalidJson)
        | some v => .ok v

/-- Embeds `XToolApiClient.async_ping`. -/
def asyncPing (r : RawResp) : Except PyErr Bool := do
  let payload ← getJson r
  let v ← pyGet payload "result"
  return valEqStr (v.getD .none) "ok"

/-- Embeds `XToolApiClient.async_get_machine_type`. -/
def asyncGetMachineType (r : RawResp) : Except PyErr String := do
  let payload ← getJson r
  let v ← pyGet payload "type"
  return pyStr (v.getD (.str "Unknown xTool"))

/-- Embeds `XToolApiClient.async_get_mac`: `str(mac) if mac else None`
uses Python truthiness, so an empty or zero `mac` yields `None`. -/
def asyncGetMac (r : RawResp) : Except PyErr (Option String) := do
  let payload ← getJson r
  let mac ← pyGet payload "mac"
  let macv := mac.getD .none
  return if pyTruthy macv then some (pyStr macv) else Option.none

/-- Embeds `XToolApiClient.async_get_progress`: the decoded body verbatim. -/
def asyncGetProgress (r : RawResp) : Except PyErr PyVal :=
  getJson r

/-- Embeds `XToolApiClient.async_get_working_state`. -/
def asyncGetWorkingState (r : RawResp) : Except PyErr String := do
  let payload ← getJson r
  let v ← pyGet payload "working"
  return pyStr (v.getD (.str "0"))

/-- Embeds `XToolApiClient.async_get_peripheral_status`. -/
def asyncGetPeripheralStatus (r : RawResp) : Except PyErr PyVal :=
  getJson r

/-- Embeds `XToolApiClient.async_cnc_action` for a given device response
(the `action` argument only selects the request URL and is irrelevant to
the decoding, so it is not a parameter here). -/
def asyncCncAction (r : RawResp) : Except PyErr Bool := do
  let payload ← getJson r
  let v ← pyGet payload "result"
  return valEqStr (v.getD .none) "ok"

/-- The exception an `Except` computation failed with, if it did. -/
def errOf {α : Type} : Except PyErr α → Option PyErr
  | .error e => some e
  | .ok _ => Option.none

/-- The failure, if any, of each of the four concurrent sub-calls of the
`async_get_snapshot` fan-out: 0 = progress, 1 = working-state,
2 = peripheral-status, 3 = machine-type. -/
def subErrOf (r1 r2 r3 r4 : RawResp) : Fin 4 → Option PyErr
  | ⟨0, _⟩ => errOf (asyncGetProgress r1)
  | ⟨1, _⟩ => errOf (asyncGetWorkingState r2)
  | ⟨2, _⟩ => errOf (asyncGetPeripheralStatus r3)
  | ⟨3, _⟩ => errOf (asyncGetMachineType r4)
  | ⟨n + 4, h⟩ => absurd h (by omega)

/-- The error of the first failing task along a completion order. -/
def firstErrAlong (f : Fin 4 → Option PyErr) : List (Fin 4) → Option PyErr
  | [] => Option.none
  | i :: rest =>
      match f i with
      | some e => some e
      | Option.none => firstErrAlong f rest

/-- Embeds `XToolApiClient.async_get_snapshot`.  The four sub-calls run
concurrently under `asyncio.gather`; `order` resolves the scheduling
nondeterminism as the order in which the tasks complete.  When any sub-call
raises, gather propagates the exception of the first failing task in
completion order — which may be a later argument's `AttributeError`
outracing an earlier argument's `XToolApiError`.  (The canonical tail
`[0, 1, 2, 3]` only totalizes the function for `order` lists that omit an
index; for a true completion permutation it is never reached.)  Only when
all four sub-calls succeed does the snapshot assembly run its field
conversions (`float`/`int` with defaults), which happen after the gather. -/
def asyncGetSnapshot (order : List (Fin 4)) (r1 r2 r3 r4 : RawResp) :
    Except PyErr PyDict :=
  match firstErrAlong (subErrOf r1 r2 r3 r4) (order ++ [0, 1, 2, 3]) with
  | some e => Except.error e
  | Option.none => do
      let progress ← asyncGetProgress r1
      let workingState ← asyncGetWorkingState r2
      let peripheral ← asyncGetPeripheralStatus r3
      let machineType ← asyncGetMachineType r4
      let p ← pyFloat ((← pyGet progress "progress").getD (.float 0))
      let w ← pyInt ((← pyGet progress "working").getD (.int 0))
      let l ← pyInt ((← pyGet progress "line").getD (.int 0))
      return [("progress", .float p), ("working", .int w), ("line", .int l),
        ("working_state", .str workingState), ("machine_type", .str machineType),
        ("peripheral_status", peripheral)]

/-- The fixed working-state lookup table of `coordinator.py`. -/
def WORKING_STATE_MAP : List (String × String) :=
  [("0", "idle"), ("1", "running_api"), ("2", "running_button")]

/-- Lookup in a string-keyed, string-valued Python dict. -/
def strMapLookup : List (String × String) → String → Option String
  | [], _ => Option.none
  | (k, v) :: rest, key => if k = key then some v else strMapLookup rest key

/-- Python `WORKING_STATE_MAP.get(key, default)` where `key` is an arbitrary
value: only a `str` key can match the table's `str` keys. -/
def workingStateMapGetD (key : PyVal) (dflt : String) : String :=
  match key with
  | .str s => (strMapLookup WORKING_STATE_MAP s).getD dflt
  | _ => dflt

/-- `const.ATTR_WS_STATE`. -/
def ATTR_WS_STATE : String := "ws_state"

/-- How one poll cycle of the coordinator terminates abnormally:
`updateFailed` is the `UpdateFailed` raised from a caught `XToolApiError`;
`crashed` is any other exception escaping `_async_update_data`. -/
inductive UpdateErr where
  | updateFailed (cause : HttpFailure)
  | crashed (e : PyErr)
deriving DecidableEq

/-- Embeds `XToolDataUpdateCoordinator._async_update_data`: fetch the
snapshot (only `XToolApiError` is caught and converted to `UpdateFailed`),
derive the working-state label through `WORKING_STATE_MAP`, and carry the
previous snapshot's `ws_state` entry forward when present
(`if self.data and ATTR_WS_STATE in self.data`). -/
def asyncUpdateData (order : List (Fin 4)) (prev : Option PyDict)
    (r1 r2 r3 r4 : RawResp) : Except UpdateErr PyDict :=
  match asyncGetSnapshot order r1 r2 r3 r4 with
  | .error (.apiError cause) => .error (.updateFailed cause)
  | .error e => .error (.crashed e)
  | .ok data =>
      let data := dictSet data "working_state_label"
        (.str (workingStateMapGetD (dictGetD data "working_state" (.str "0")) "unknown"))
      match prev with
      | Option.none => .ok data
      | some p =>
          if pyTruthy (.dict p) && dictHas p ATTR_WS_STATE then
            .ok (dictSet data ATTR_WS_STATE (dictGetD p ATTR_WS_STATE .none))
          else .ok data

/-- Observable coordinator state: its current data dict (absent before the
first successful update), the last-update-success flag, and a count of
subscriber notifications. -/
structure CoordState where
  data : Option PyDict
  lastUpdateSuccess : Bool
  notifyCount : Nat

/-- Modelled from the spec: the platform's update-coordinator refresh around
`_async_update_data` is not part of this repository; per the spec's poll
cycle, a failed update raises an "update failed" condition and "the
last-known-good snapshot remains the current state", while a successful
update replaces the snapshot and notifies subscribers. -/
def refreshStep (st : CoordState) (order : List (Fin 4))
    (r1 r2 r3 r4 : RawResp) : CoordState :=
  match asyncUpdateData order st.data r1 r2 r3 r4 with
  | .error _ => { st with lastUpdateSuccess := false }
  | .ok d =>
      { data := some d, lastUpdateSuccess := true, notifyCount := st.notifyCount + 1 }

/-- Embeds `XToolDataUpdateCoordinator._async_handle_ws_message`: shallow-copy
the current data (`dict(self.data or {})`), set its `ws_state` entry to the
message text, and publish it via `async_set_updated_data`, which replaces the
data, marks the update successful and notifies subscribers. -/
def wsMessageStep (st : CoordState) (message : String) : CoordState :=
  let current := dictSet (st.data.getD []) ATTR_WS_STATE (.str message)
  { data := some current, lastUpdateSuccess := true, notifyCount := st.notifyCount + 1 }

/-- The await points of `_ws_loop`: waiting in `ws_connect`, waiting for the
next inbound frame, or in the 5-second backoff sleep; `finished` means the
coroutine has returned or was torn down by a propagating exception. -/
inductive WsPhase where
  | connecting
  | receiving
  | sleeping
  | finished
deriving DecidableEq

/-- The background websocket task: its current await point and whether
`Task.cancel()` has been requested on it. -/
structure WsTask where
  phase : WsPhase
  cancelRequested : Bool
deriving DecidableEq

/-- One inbound websocket frame, by `aiohttp.WSMsgType`: `TEXT` is forwarded,
`CLOSED`/`ERROR` break the receive loop, any other type is skipped. -/
inductive WsFrame where
  | text (s : String)
  | closed
  | frameError
  | other
deriving DecidableEq

/-- Embeds `_ws_loop` stepped from one await point to the next.  A pending
cancellation is delivered at the await point as `CancelledError`, which no
handler in `_ws_loop` catches (its `except` clause catches only
`TimeoutError` and `ClientError`), so the coroutine terminates.  Otherwise:
a failed connect or a transport error is swallowed and, unless the stop
signal is set, leads into the backoff sleep; a `TEXT` frame is forwarded
(unless stopping, which breaks out and returns); `CLOSED`/`ERROR` frames
break the receive loop; the sleep wakes into the `while not stop` check. -/
def wsLoopStep (connOk : Bool) (frame : Option WsFrame) (stopSet : Bool)
    (t : WsTask) : WsTask :=
  if t.phase = .finished then t
  else if t.cancelRequested then { t with phase := .finished }
  else
    match t.phase with
    | .connecting =>
        if connOk then { t with phase := .receiving }
        else if stopSet then { t with phase := .finished }
        else { t with phase := .sleeping }
    | .receiving =>
        match frame with
        | some (.text _) => if stopSet then { t with phase := .finished } else t
        | some .other => t
        | _ =>
            if stopSet then { t with phase := .finished }
            else { t with phase := .sleeping }
    | .sleeping =>
        if stopSet then { t with phase := .finished }
        else { t with phase := .connecting }
    | .finished => t

/-- The client's push-channel bookkeeping: `_ws_task`, the `_ws_stop` event,
and a count of every task ever spawned with `create_task`. -/
structure ClientState where
  wsTask : Option WsTask
  wsStopSet : Bool
  tasksSpawned : Nat
deriving DecidableEq

/-- Embeds `XToolApiClient.async_start_ws`: a no-op while `_ws_task` exists
and is not done; otherwise clear the stop event and spawn one new task. -/
def startWs (st : ClientState) : ClientState :=
  match st.wsTask with
  | some t =>
      if t.phase ≠ .finished then st
      else
        { wsTask := some { phase := .connecting, cancelRequested := false },
          wsStopSet := false, tasksSpawned := st.tasksSpawned + 1 }
  | Option.none =>
      { wsTask := some { phase := .connecting, cancelRequested := false },
        wsStopSet := false, tasksSpawned := st.tasksSpawned + 1 }

/-- Embeds `XToolApiClient.async_stop_ws`: set the stop event; if a task
exists, request its cancellation, then `await` it — the await resumes the
task at its pending await point and returns only once the coroutine has
terminated (`CancelledError` being suppressed by the caller) — and drop the
reference.  The second component is the state of the background task at the
moment `async_stop_ws` returns (`Option.none` when there was no task). -/
def stopWs (connOk : Bool) (frame : Option WsFrame) (st : ClientState) :
    ClientState × Option WsTask :=
  let st1 : ClientState := { st with wsStopSet := true }
  match st1.wsTask with
  | Option.none => (st1, Option.none)
  | some t =>
      let joined := wsLoopStep connOk frame st1.wsStopSet { t with cancelRequested := true }
      ({ st1 with wsTask := Option.none }, some joined)

/-- A device found by UDP discovery, as assembled by
`_discover_devices_sync`. -/
structure Device where
  host : String
  name : String
  version : String
deriving DecidableEq

/-- One iteration of the discovery receive loop, as seen at `recvfrom`:
the socket timeout fires (the deadline passed), some other `OSError` is
raised, or a datagram arrives whose payload decodes as the given JSON value
(`Option.none` when `json.loads` fails). -/
inductive RecvEvent where
  | timeout
  | osError
  | datagram (body : Option PyVal)

/-- Python `found[host] = entry` on the insertion-ordered `found` dict:
replace in place when the host is present, else append. -/
def upsert : List (String × Device) → String → Device → List (String × Device)
  | [], key, dev => [(key, dev)]
  | (k, d) :: rest, key, dev =>
      if k = key then (k, dev) :: rest else (k, d) :: upsert rest key dev

/-- Embeds the body of the discovery receive loop for one datagram: a
JSON-decode failure is skipped (`continue`), a mismatched `requestId` is
skipped, an empty (stripped) `ip` is skipped, and otherwise the entry
overwrites `found[host]`.  `message.get` on a datagram whose JSON is not an
object raises `AttributeError`, which no handler catches. -/
def handleDatagram (rid : Int) (found : List (String × Device)) (body : Option PyVal) :
    Except PyErr (List (String × Device)) :=
  match body with
  | Option.none => .ok found
  | some (PyVal.dict kvs) =>
      if !pyEqInt (dictGetD kvs "requestId" .none) rid then .ok found
      else
        let host := pyStrip (pyStr (dictGetD kvs "ip" (.str "")))
        if host = "" then .ok found
        else
          .ok (upsert found host
            { host := host
              name := pyStr (dictGetD kvs "name" (.str "xTool Laser"))
              version := pyStr (dictGetD kvs "version" (.str "")) })
  | some _ => .error .attributeError

/-- Embeds the discovery receive loop over an event script: a socket timeout
breaks the loop and the collected devices are returned (`list(found.values())`
in insertion order); any other `OSError` is caught by the outer
`except OSError` and yields `[]`; the script running out models the deadline
passing at the `while` check. -/
def discoverLoop (rid : Int) :
    List (String × Device) → List RecvEvent → Except PyErr (List Device)
  | found, [] => .ok (found.map Prod.snd)
  | found, .timeout :: _ => .ok (found.map Prod.snd)
  | _, .osError :: _ => .ok []
  | found, .datagram body :: rest =>
      match handleDatagram rid found body with
      | .error e => .error e
      | .ok found2 => discoverLoop rid found2 rest

/-- Embeds `XToolApiClient._discover_devices_sync` with the socket
interactions abstracted into an event script: an `OSError` from `bind` or
`sendto` is caught by the outer `except OSError` and yields `[]`; otherwise
the receive loop runs over the script. -/
def discoverDevicesSync (rid : Int) (bindOk sendOk : Bool)
    (events : List RecvEvent) : Except PyErr (List Device) :=
  if !bindOk then .ok []
  else if !sendOk then .ok []
  else discoverLoop rid [] events

/-- Observable effects of the pause/resume/stop service handler: one HTTP
control request per entry, and one coordinator refresh request per entry. -/
inductive SvcEvent where
  | cncRequest (entryId : String) (action : String)
  | refreshRequest (entryId : String)
deriving DecidableEq

/-- Failures of the service handler: the `HomeAssistantError`s raised by
`_get_target_entries`, or an `XToolApiError` escaping `async_cnc_action`. -/
inductive SvcErr where
  | noEntries
  | unknownEntry (entryId : String)
  | apiFailure (e : PyErr)
deriving DecidableEq

/-- Embeds `_get_target_entries` over the insertion-ordered registry
`hass.data[DOMAIN]` (a list of loaded entry ids): raise when no entries are
loaded; a truthy `entry_id` (a nonempty string — `if entry_id:` is a
truthiness test) targets that entry alone, raising when unknown; otherwise
every loaded entry is targeted. -/
def getTargetEntries (registry : List String) (entryId : Option String) :
    Except SvcErr (List String) :=
  if registry.isEmpty then .error .noEntries
  else
    match entryId with
    | some eid =>
        if eid ≠ "" then
          if eid ∈ registry then .ok [eid] else .error (.unknownEntry eid)
        else .ok registry
    | Option.none => .ok registry

/-- The per-entry loop of `_async_handle_job_service`: send the control
request, then (when it does not raise — its boolean result is ignored)
request a coordinator refresh; an `XToolApiError` propagates, aborting the
remaining entries.  `respOf` gives the device response behind each entry's
`/cnc/data` request; the trace records the requests in program order. -/
def dispatchLoop (respOf : String → RawResp) (action : String) :
    List String → List SvcEvent → List SvcEvent × Option PyErr
  | [], trace => (trace, Option.none)
  | eid :: rest, trace =>
      let trace := trace ++ [SvcEvent.cncRequest eid action]
      match asyncCncAction (respOf eid) with
      | .error e => (trace, some e)
      | .ok _ => dispatchLoop respOf action rest (trace ++ [SvcEvent.refreshRequest eid])

/-- Embeds `_async_handle_job_service`: resolve the targets, then run the
dispatch loop over them. -/
def handleJobService (registry : List String) (respOf : String → RawResp)
    (entryId : Option String) (action : String) : Except SvcErr (List SvcEvent) :=
  match getTargetEntries registry entryId with
  | .error e => .error e
  | .ok targets =>
      match dispatchLoop respOf action targets [] with
      | (trace, Option.none) => .ok trace
      | (_, some e) => .error (.apiFailure e)

/-- Whether one HTTP exchange is a failure mode of `_get_json`: a timeout,
a transport error, a 4xx/5xx status, or an undecodable body. -/
def httpFails : RawResp → Bool
  | .timeout => true
  | .transportError => true
  | .resp status body => decide (400 ≤ status) || body.isNone

/-- The `HttpFailure` a failing exchange is reported with. -/
def failCause : RawResp → HttpFailure
  | .timeout => .timeout
  | .transportError => .transportError
  | .resp status _ => if 400 ≤ status then .badStatus status else .invalidJson

/-- One externally-triggered coordinator step: a poll cycle (with the
completion order of its fan-out and the four device responses behind its
snapshot) or an inbound push message. -/
inductive CoordOp where
  | poll (order : List (Fin 4)) (r1 r2 r3 r4 : RawResp)
  | push (m : String)

/-- Run a sequence of coordinator operations from a starting state. -/
def coordRun (st : CoordState) : List CoordOp → CoordState
  | [] => st
  | op :: rest =>
      coordRun
        (match op with
         | .poll order r1 r2 r3 r4 => refreshStep st order r1 r2 r3 r4
         | .push m => wsMessageStep st m) rest

/-- The trace the dispatch loop produces when every control request
succeeds: each entry's control request immediately followed by its refresh
request. -/
def expectedTrace (action : String) : List String → List SvcEvent
  | [] => []
  | eid :: rest =>
      SvcEvent.cncRequest eid action :: SvcEvent.refreshRequest eid ::
        expectedTrace action rest

/-- Whether a datagram is benign for the receive loop: it either fails to
decode or decodes to a JSON object (a non-object JSON value makes
`message.get` raise). -/
def benignBody : Option PyVal → Bool
  | Option.none => true
  | some (PyVal.dict _) => true
  | some _ => false

/-- The `found` entry a datagram contributes when it passes the three
filters of the receive loop, keyed by the stripped ip. -/
def acceptedEntry (rid : Int) : Option PyVal → Option (String × Device)
  | some (PyVal.dict kvs) =>
      if !pyEqInt (dictGetD kvs "requestId" .none) rid then Option.none
      else
        let host := pyStrip (pyStr (dictGetD kvs "ip" (.str "")))
        if host = "" then Option.none
        else some (host,
          { host := host
            name := pyStr (dictGetD kvs "name" (.str "xTool Laser"))
            version := pyStr (dictGetD kvs "version" (.str "")) })
  | _ => Option.none

/-- The first device in the result list advertising the given host. -/
def findByHost (devs : List Device) (key : String) : Option Device :=
  devs.find? (fun d => d.host == key)

/-- The accumulated `found` map after a run of `found[host] = entry`
assignments. -/
def foldUp (m : List (String × Device)) (acc : List (String × Device)) :
    List (String × Device) :=
  acc.foldl (fun m2 e => upsert m2 e.1 e.2) m

/-- Assoc lookup on the `found` map. -/
def lookupA : List (String × Device) → String → Option Device
  | [], _ => Option.none
  | (k, d) :: rest, key => if k = key then some d else lookupA rest key

/-- The device of the last entry with the given key in a run of entries. -/
def lastFor (acc : List (String × Device)) (key : String) : Option Device :=
  ((acc.filter (fun e => e.1 == key)).getLast?).map Prod.snd

/-- The device described by the last datagram accepted for the given host. -/
def lastAcceptedFor (rid : Int) (dgs : List (Option PyVal)) (key : String) :
    Option Device :=
  lastFor (dgs.filterMap (acceptedEntry rid)) key

/-- Every value in the `found` map records the host it is keyed by. -/
def hostConsistent (m : List (String × Device)) : Prop :=
  ∀ e ∈ m, Device.host e.2 = e.1

theorem bindError {ε α β : Type} (e : ε) (f : α → Except ε β) :
    (Except.error e >>= f) = Except.error e := rfl

theorem bindOk {ε α β : Type} (a : α) (f : α → Except ε β) :
    (Except.ok a >>= f : Except ε β) = f a := rfl

theorem mapError {ε α β : Type} (e : ε) (f : α → β) :
    (f <$> (Except.error e : Except ε α)) = Except.error e := rfl

theorem mapOk {ε α β : Type} (a : α) (f : α → β) :
    (f <$> (Except.ok a : Except ε α)) = Except.ok (f a) := rfl

theorem getJson_of_fails {r : RawResp} (h : httpFails r = true) :
    getJson r = Except.error (PyErr.apiError (failCause r)) := by
  cases r with
  | timeout => rfl
  | transportError => rfl
  | resp status body =>
      simp only [httpFails, Bool.or_eq_true, decide_eq_true_eq, Option.isNone_iff_eq_none] at h
      rcases h with h | h
      · simp [getJson, failCause, h]
      · subst h
        simp only [getJson, failCause]
        split <;> simp

theorem getJson_of_ok {r : RawResp} (h : httpFails r = false) :
    ∃ v, getJson r = Except.ok v := by
  cases r with
  | timeout => simp [httpFails] at h
  | transportError => simp [httpFails] at h
  | resp status body =>
      simp only [httpFails, Bool.or_eq_false_iff, decide_eq_false_iff_not,
        Option.isNone_eq_false_iff, Option.isSome_iff_exists] at h
      obtain ⟨hs, v, hv⟩ := h
      exact ⟨v, by simp [getJson, hs, hv]⟩

theorem asyncGetWorkingState_of_fails {r : RawResp} (h : httpFails r = true) :
    asyncGetWorkingState r = Except.error (PyErr.apiError (failCause r)) := by
  simp [asyncGetWorkingState, getJson_of_fails h, bindError]

theorem asyncGetMachineType_of_fails {r : RawResp} (h : httpFails r = true) :
    asyncGetMachineType r = Except.error (PyErr.apiError (failCause r)) := by
  simp [asyncGetMachineType, getJson_of_fails h, bindError]

theorem fin4_mem_canonical (i : Fin 4) : i ∈ ([0, 1, 2, 3] : List (Fin 4)) := by
  fin_cases i <;> decide

theorem firstErrAlong_of_unique {f : Fin 4 → Option PyErr} {i : Fin 4} {e : PyErr}
    (hi : f i = some e) (hothers : ∀ j, j ≠ i → f j = Option.none) :
    ∀ l, i ∈ l → firstErrAlong f l = some e := by
  intro l
  induction l with
  | nil => intro hmem; simp at hmem
  | cons j rest ih =>
      intro hmem
      by_cases hji : j = i
      · subst hji; simp [firstErrAlong, hi]
      · simp only [firstErrAlong, hothers j hji]
        exact ih (by
          rcases List.mem_cons.mp hmem with hh | hh
          · exact absurd hh.symm hji
          · exact hh)

theorem firstErrAlong_isSome {f : Fin 4 → Option PyErr} {i : Fin 4} {e : PyErr}
    (hi : f i = some e) :
    ∀ l, i ∈ l → ∃ e2, firstErrAlong f l = some e2 := by
  intro l
  induction l with
  | nil => intro hmem; simp at hmem
  | cons j rest ih =>
      intro hmem
      cases hj : f j with
      | some e2 => exact ⟨e2, by simp [firstErrAlong, hj]⟩
      | none =>
          have hji : j ≠ i := by
            intro hc
            rw [hc, hi] at hj
            cases hj
          simp only [firstErrAlong, hj]
          exact ih (by
            rcases List.mem_cons.mp hmem with hh | hh
            · exact absurd hh.symm hji
            · exact hh)

theorem firstErrAlong_mem {f : Fin 4 → Option PyErr} {e : PyErr} :
    ∀ l, firstErrAlong f l = some e → ∃ j, j ∈ l ∧ f j = some e := by
  intro l
  induction l with
  | nil => intro h; simp [firstErrAlong] at h
  | cons j rest ih =>
      intro h
      cases hj : f j with
      | some e2 =>
          simp only [firstErrAlong, hj, Option.some.injEq] at h
          subst h
          exact ⟨j, by simp, hj⟩
      | none =>
          simp only [firstErrAlong, hj] at h
          obtain ⟨j2, hmem, hj2⟩ := ih h
          exact ⟨j2, by simp [hmem], hj2⟩

theorem asyncGetSnapshot_single_fail {r1 r2 r3 r4 : RawResp} {i : Fin 4} {e : PyErr}
    (hi : subErrOf r1 r2 r3 r4 i = some e)
    (hothers : ∀ j, j ≠ i → subErrOf r1 r2 r3 r4 j = Option.none)
    (order : List (Fin 4)) :
    asyncGetSnapshot order r1 r2 r3 r4 = Except.error e := by
  have hmem : i ∈ order ++ ([0, 1, 2, 3] : List (Fin 4)) :=
    List.mem_append_right _ (fin4_mem_canonical i)
  have hfe := firstErrAlong_of_unique hi hothers _ hmem
  unfold asyncGetSnapshot
  rw [hfe]

/-- C3 (amended, for the failure modes that `_get_json` turns into
`XToolApiError`): every HTTP method of the client propagates the
`XToolApiError` of a timed-out, transport-failed, undecodable, or
4xx/5xx-status exchange, returning no partially-parsed value.  For
`getSnapshot`, a failing exchange behind any one of its four sub-calls —
the other three sub-calls succeeding — fails the whole call with that
`XToolApiError`, for every completion order of the gather. -/
theorem httpMethods_fail_with_protocolError (r : RawResp) (h : httpFails r = true) :
    asyncPing r = Except.error (PyErr.apiError (failCause r)) ∧
    asyncGetMachineType r = Except.error (PyErr.apiError (failCause r)) ∧
    asyncGetMac r = Except.error (PyErr.apiError (failCause r)) ∧
    asyncGetProgress r = Except.error (PyErr.apiError (failCause r)) ∧
    asyncGetWorkingState r = Except.error (PyErr.apiError (failCause r)) ∧
    asyncGetPeripheralStatus r = Except.error (PyErr.apiError (failCause r)) ∧
    asyncCncAction r = Except.error (PyErr.apiError (failCause r)) ∧
    (∀ (order : List (Fin 4)) (r2 r3 r4 : RawResp),
      (∃ s, asyncGetWorkingState r2 = Except.ok s) →
      (∃ v, getJson r3 = Except.ok v) →
      (∃ s, asyncGetMachineType r4 = Except.ok s) →
      asyncGetSnapshot order r r2 r3 r4 =
        Except.error (PyErr.apiError (failCause r))) ∧
    (∀ (order : List (Fin 4)) (r1 r3 r4 : RawResp),
      (∃ v, getJson r1 = Except.ok v) →
      (∃ v, getJson r3 = Except.ok v) →
      (∃ s, asyncGetMachineType r4 = Except.ok s) →
      asyncGetSnapshot order r1 r r3 r4 =
        Except.error (PyErr.apiError (failCause r))) ∧
    (∀ (order : List (Fin 4)) (r1 r2 r4 : RawResp),
      (∃ v, getJson r1 = Except.ok v) →
      (∃ s, asyncGetWorkingState r2 = Except.ok s) →
      (∃ s, asyncGetMachineType r4 = Except.ok s) →
      asyncGetSnapshot order r1 r2 r r4 =
        Except.error (PyErr.apiError (failCause r))) ∧
    (∀ (order : List (Fin 4)) (r1 r2 r3 : RawResp),
      (∃ v, getJson r1 = Except.ok v) →
      (∃ s, asyncGetWorkingState r2 = Except.ok s) →
      (∃ v, getJson r3 = Except.ok v) →
      asyncGetSnapshot order r1 r2 r3 r =
        Except.error (PyErr.apiError (failCause r))) := by
  have hj := getJson_of_fails h
  refine ⟨?_, ?_, ?_, ?_, ?_, ?_, ?_, ?_, ?_, ?_, ?_⟩
  · simp [asyncPing, hj, bindError]
  · simp [asyncGetMachineType, hj, bindError]
  · simp [asyncGetMac, hj, bindError]
  · simp [asyncGetProgress, hj]
  · simp [asyncGetWorkingState, hj, bindError]
  · simp [asyncGetPeripheralStatus, hj]
  · simp [asyncCncAction, hj, bindError]
  · intro order r2 r3 r4 h2 h3 h4
    obtain ⟨s2, hs2⟩ := h2
    obtain ⟨v3, hv3⟩ := h3
    obtain ⟨s4, hs4⟩ := h4
    refine asyncGetSnapshot_single_fail (i := ⟨0, by omega⟩) ?_ ?_ order
    · simp [subErrOf, errOf, asyncGetProgress, hj]
    · intro j hj0
      fin_cases j
      · simp at hj0
      · simp [subErrOf, errOf, hs2]
      · simp [subErrOf, errOf, asyncGetPeripheralStatus, hv3]
      · simp [subErrOf, errOf, hs4]
  · intro order r1 r3 r4 h1 h3 h4
    obtain ⟨v1, hv1⟩ := h1
    obtain ⟨v3, hv3⟩ := h3
    obtain ⟨s4, hs4⟩ := h4
    refine asyncGetSnapshot_single_fail (i := ⟨1, by omega⟩) ?_ ?_ order
    · simp [subErrOf, errOf, asyncGetWorkingState_of_fails h]
    · intro j hj1
      fin_cases j
      · simp [subErrOf, errOf, asyncGetProgress, hv1]
      · simp at hj1
      · simp [subErrOf, errOf, asyncGetPeripheralStatus, hv3]
      · simp [subErrOf, errOf, hs4]
  · intro order r1 r2 r4 h1 h2 h4
    obtain ⟨v1, hv1⟩ := h1
    obtain ⟨s2, hs2⟩ := h2
    obtain ⟨s4, hs4⟩ := h4
    refine asyncGetSnapshot_single_fail (i := ⟨2, by omega⟩) ?_ ?_ order
    · simp [subErrOf, errOf, asyncGetPeripheralStatus, hj]
    · intro j hj2
      fin_cases j
      · simp [subErrOf, errOf, asyncGetProgress, hv1]
      · simp [subErrOf, errOf, hs2]
      · simp at hj2
      · simp [subErrOf, errOf, hs4]
  · intro order r1 r2 r3 h1 h2 h3
    obtain ⟨v1, hv1⟩ := h1
    obtain ⟨s2, hs2⟩ := h2
    obtain ⟨v3, hv3⟩ := h3
    refine asyncGetSnapshot_single_fail (i := ⟨3, by omega⟩) ?_ ?_ order
    · simp [subErrOf, errOf, asyncGetMachineType_of_fails h]
    · intro j hj3
      fin_cases j
      · simp [subErrOf, errOf, asyncGetProgress, hv1]
      · simp [subErrOf, errOf, hs2]
      · simp [subErrOf, errOf, asyncGetPeripheralStatus, hv3]
      · simp at hj3

/-- C3 counterexample to the claim as stated: a response with the non-2xx
status 300 and a decodable JSON body is not a failure for
`response.raise_for_status()` (which raises only for status >= 400), so
`async_ping` returns a value instead of failing with the protocol error. -/
theorem ping_non2xx_succeeds :
    asyncPing (RawResp.resp 300 (some (PyVal.dict [("result", PyVal.str "ok")]))) =
      Except.ok true ∧
    ∀ e : PyErr,
      asyncPing (RawResp.resp 300 (some (PyVal.dict [("result", PyVal.str "ok")]))) ≠
        Except.error e := by
  refine ⟨rfl, ?_⟩
  intro e hcontra
  rw [show asyncPing (RawResp.resp 300 (some (PyVal.dict [("result", PyVal.str "ok")]))) =
    Except.ok true from rfl] at hcontra
  exact Except.noConfusion hcontra

/-- C1 counterexample to the claim as stated: the progress sub-call times
out (a failing sub-call, so the claim demands the whole operation fail with
ProtocolError), while machine-type receives a 200-status body decoding to
the non-object JSON value 5 and crashes with `AttributeError`.  The
machine-type task completes first (its response arrives while progress is
still waiting out its timeout), so `asyncio.gather` propagates the
`AttributeError`: the operation fails, but not with ProtocolError. -/
theorem getSnapshot_race_not_protocolError :
    asyncGetSnapshot [3, 0, 1, 2] RawResp.timeout
        (RawResp.resp 200 (some (PyVal.dict [("working", PyVal.str "1")])))
        (RawResp.resp 200 (some (PyVal.dict [])))
        (RawResp.resp 200 (some (PyVal.int 5))) =
      Except.error PyErr.attributeError ∧
    ∀ c : HttpFailure,
      asyncGetSnapshot [3, 0, 1, 2] RawResp.timeout
          (RawResp.resp 200 (some (PyVal.dict [("working", PyVal.str "1")])))
          (RawResp.resp 200 (some (PyVal.dict [])))
          (RawResp.resp 200 (some (PyVal.int 5))) ≠
        Except.error (PyErr.apiError c) := by
  refine ⟨rfl, ?_⟩
  intro c hcontra
  rw [show asyncGetSnapshot [3, 0, 1, 2] RawResp.timeout
      (RawResp.resp 200 (some (PyVal.dict [("working", PyVal.str "1")])))
      (RawResp.resp 200 (some (PyVal.dict [])))
      (RawResp.resp 200 (some (PyVal.int 5))) =
    Except.error PyErr.attributeError from rfl] at hcontra
  injection hcontra with h2
  exact PyErr.noConfusion h2

/-- C1 (amended): `getSnapshot` is atomic.  For every completion order of
the gather and every execution in which any of its four concurrent
sub-calls fails — with whatever exception — the whole operation fails: no
partial snapshot value is returned, and the coordinator's poll cycle
leaves the current snapshot unchanged and notifies nobody.  The propagated
failure is a ProtocolError whenever every failing sub-call fails with
ProtocolError (the failure mode the spec gives the sub-calls); a sub-call
crashing with `AttributeError` on a well-status non-object JSON body may
instead win the completion race. -/
theorem getSnapshot_atomic (order : List (Fin 4)) (st : CoordState)
    (r1 r2 r3 r4 : RawResp)
    (hfail : ∃ i, subErrOf r1 r2 r3 r4 i ≠ Option.none) :
    (∃ e, asyncGetSnapshot order r1 r2 r3 r4 = Except.error e) ∧
    ((∀ i e, subErrOf r1 r2 r3 r4 i = some e → ∃ c, e = PyErr.apiError c) →
      ∃ c, asyncGetSnapshot order r1 r2 r3 r4 =
        Except.error (PyErr.apiError c)) ∧
    (refreshStep st order r1 r2 r3 r4).data = st.data ∧
    (refreshStep st order r1 r2 r3 r4).lastUpdateSuccess = false ∧
    (refreshStep st order r1 r2 r3 r4).notifyCount = st.notifyCount := by
  obtain ⟨i, hine⟩ := hfail
  obtain ⟨e, he⟩ : ∃ e, subErrOf r1 r2 r3 r4 i = some e := by
    cases hcase : subErrOf r1 r2 r3 r4 i with
    | none => exact absurd hcase hine
    | some e2 => exact ⟨e2, rfl⟩
  have hmem : i ∈ order ++ ([0, 1, 2, 3] : List (Fin 4)) :=
    List.mem_append_right _ (fin4_mem_canonical i)
  obtain ⟨e0, he0⟩ := firstErrAlong_isSome he _ hmem
  have hsnap : asyncGetSnapshot order r1 r2 r3 r4 = Except.error e0 := by
    unfold asyncGetSnapshot
    rw [he0]
  have hupd : ∃ ue, asyncUpdateData order st.data r1 r2 r3 r4 =
      Except.error ue := by
    unfold asyncUpdateData
    rw [hsnap]
    cases e0 with
    | apiError c => exact ⟨UpdateErr.updateFailed c, rfl⟩
    | attributeError => exact ⟨UpdateErr.crashed PyErr.attributeError, rfl⟩
    | typeError => exact ⟨UpdateErr.crashed PyErr.typeError, rfl⟩
    | valueError => exact ⟨UpdateErr.crashed PyErr.valueError, rfl⟩
  obtain ⟨ue, hue⟩ := hupd
  refine ⟨⟨e0, hsnap⟩, ?_, ?_, ?_, ?_⟩
  · intro hall
    obtain ⟨j, hjmem, hjerr⟩ := firstErrAlong_mem _ he0
    obtain ⟨c, hc⟩ := hall j e0 hjerr
    exact ⟨c, by rw [hsnap, hc]⟩
  · simp [refreshStep, hue]
  · simp [refreshStep, hue]
  · simp [refreshStep, hue]

/-- C1 witness: the amended theorem applied to a canonical-order poll in
which the progress sub-call times out while the other three succeed: the
whole operation fails with the protocol error and the coordinator keeps its
snapshot. -/
theorem getSnapshot_atomic_witness :
    subErrOf RawResp.timeout
        (RawResp.resp 200 (some (PyVal.dict [("working", PyVal.str "1")])))
        (RawResp.resp 200 (some (PyVal.dict [])))
        (RawResp.resp 200 (some (PyVal.dict [("type", PyVal.str "P2")])))
        ⟨0, by omega⟩ ≠ Option.none ∧
    (∃ c, asyncGetSnapshot [0, 1, 2, 3] RawResp.timeout
        (RawResp.resp 200 (some (PyVal.dict [("working", PyVal.str "1")])))
        (RawResp.resp 200 (some (PyVal.dict [])))
        (RawResp.resp 200 (some (PyVal.dict [("type", PyVal.str "P2")]))) =
        Except.error (PyErr.apiError c)) ∧
    (refreshStep
      { data := some [("progress", PyVal.float 1)], lastUpdateSuccess := true,
        notifyCount := 5 }
      [0, 1, 2, 3] RawResp.timeout
      (RawResp.resp 200 (some (PyVal.dict [("working", PyVal.str "1")])))
      (RawResp.resp 200 (some (PyVal.dict [])))
      (RawResp.resp 200 (some (PyVal.dict [("type", PyVal.str "P2")])))).data =
      some [("progress", PyVal.float 1)] := by
  have happ := getSnapshot_atomic [0, 1, 2, 3]
    { data := some [("progress", PyVal.float 1)], lastUpdateSuccess := true,
      notifyCount := 5 }
    RawResp.timeout
    (RawResp.resp 200 (some (PyVal.dict [("working", PyVal.str "1")])))
    (RawResp.resp 200 (some (PyVal.dict [])))
    (RawResp.resp 200 (some (PyVal.dict [("type", PyVal.str "P2")])))
    ⟨⟨0, by omega⟩, by decide⟩
  refine ⟨by decide, ?_, happ.2.2.1⟩
  refine happ.2.1 ?_
  intro i e hsome
  fin_cases i
  · exact ⟨HttpFailure.timeout, (Option.some.inj hsome).symm⟩
  · exact Option.noConfusion hsome
  · exact Option.noConfusion hsome
  · exact Option.noConfusion hsome

theorem dictGet_dictSet_self (d : PyDict) (k : String) (v : PyVal) :
    dictGet (dictSet d k v) k = some v := by
  induction d with
  | nil => simp [dictSet, dictGet]
  | cons e rest ih =>
      obtain ⟨k0, v0⟩ := e
      by_cases h : k0 = k
      · simp [dictSet, dictGet, h]
      · simp [dictSet, dictGet, h, ih]

theorem dictGet_dictSet_ne (d : PyDict) (k k2 : String) (v : PyVal) (h : k ≠ k2) :
    dictGet (dictSet d k v) k2 = dictGet d k2 := by
  induction d with
  | nil => simp [dictSet, dictGet, h]
  | cons e rest ih =>
      obtain ⟨k0, v0⟩ := e
      by_cases h0 : k0 = k
      · subst h0; simp [dictSet, dictGet, h]
      · simp [dictSet, dictGet, h0, ih]

theorem ne_nil_of_dictGet {p : PyDict} {key : String} {v : PyVal}
    (h : dictGet p key = some v) : p.isEmpty = false := by
  cases p with
  | nil => simp [dictGet] at h
  | cons e rest => rfl

theorem updateData_carries_ws {st : CoordState} {p d : PyDict} {v : PyVal}
    {order : List (Fin 4)} {r1 r2 r3 r4 : RawResp}
    (hp : st.data = some p) (hv : dictGet p ATTR_WS_STATE = some v)
    (hpoll : asyncUpdateData order st.data r1 r2 r3 r4 = Except.ok d) :
    dictGet d ATTR_WS_STATE = some v := by
  rw [hp] at hpoll
  cases hsnap : asyncGetSnapshot order r1 r2 r3 r4 with
  | error e =>
      rw [asyncUpdateData, hsnap] at hpoll
      cases e <;> simp at hpoll
  | ok data0 =>
      rw [asyncUpdateData, hsnap] at hpoll
      have hne := ne_nil_of_dictGet hv
      have hhas : dictHas p ATTR_WS_STATE = true := by
        simp [dictHas, hv]
      simp only [pyTruthy, hne, Bool.not_false, hhas, Bool.and_self, if_true,
        Except.ok.injEq] at hpoll
      subst hpoll
      rw [dictGet_dictSet_self]
      simp [dictGetD, hv]

theorem refreshStep_preserves_ws (st : CoordState) (p : PyDict) (v : PyVal)
    (order : List (Fin 4)) (r1 r2 r3 r4 : RawResp)
    (hp : st.data = some p) (hv : dictGet p ATTR_WS_STATE = some v) :
    ∃ d2, (refreshStep st order r1 r2 r3 r4).data = some d2 ∧
      dictGet d2 ATTR_WS_STATE = some v := by
  cases hupd : asyncUpdateData order st.data r1 r2 r3 r4 with
  | error e =>
      refine ⟨p, ?_, hv⟩
      unfold refreshStep
      rw [hupd]
      exact hp
  | ok d =>
      refine ⟨d, ?_, updateData_carries_ws hp hv hupd⟩
      unfold refreshStep
      rw [hupd]

/-- C2: the push-event field is sticky.  Once the coordinator's data holds
a `ws_state` entry (merged from a push message), any further sequence of
poll cycles — successful or failed — carries it forward unchanged: polling
never clears it.  What does overwrite it is a newer push message, whose
handling sets the field to the new text. -/
theorem pushEvent_sticky (st : CoordState) (p : PyDict) (v : PyVal)
    (ops : List CoordOp)
    (hp : st.data = some p) (hv : dictGet p ATTR_WS_STATE = some v)
    (hpolls : ∀ op ∈ ops, ∃ order r1 r2 r3 r4, op = CoordOp.poll order r1 r2 r3 r4) :
    (∃ d2, (coordRun st ops).data = some d2 ∧
      dictGet d2 ATTR_WS_STATE = some v) ∧
    ∀ (st2 : CoordState) (m : String), ∃ d3,
      (wsMessageStep st2 m).data = some d3 ∧
      dictGet d3 ATTR_WS_STATE = some (PyVal.str m) := by
  constructor
  · have haux : ∀ (ops2 : List CoordOp),
        (∀ op ∈ ops2, ∃ order r1 r2 r3 r4, op = CoordOp.poll order r1 r2 r3 r4) →
        ∀ (st2 : CoordState) (p2 : PyDict), st2.data = some p2 →
        dictGet p2 ATTR_WS_STATE = some v →
        ∃ d2, (coordRun st2 ops2).data = some d2 ∧
          dictGet d2 ATTR_WS_STATE = some v := by
      intro ops2
      induction ops2 with
      | nil => intro _ st2 p2 hp2 hv2; exact ⟨p2, hp2, hv2⟩
      | cons op rest ih =>
          intro hpolls2 st2 p2 hp2 hv2
          obtain ⟨order, r1, r2, r3, r4, hop⟩ := hpolls2 op (by simp)
          subst hop
          simp only [coordRun]
          obtain ⟨d2, hd2, hv3⟩ :=
            refreshStep_preserves_ws st2 p2 v order r1 r2 r3 r4 hp2 hv2
          exact ih (fun x hx => hpolls2 x (by simp [hx])) _ d2 hd2 hv3
    exact haux ops hpolls st p hp hv
  · intro st2 m
    exact ⟨dictSet (st2.data.getD []) ATTR_WS_STATE (PyVal.str m), rfl,
      dictGet_dictSet_self _ _ _⟩

/-- C2 witness: the theorem applied to the spec's scenario — after push
message "M" was merged, one further successful poll (whose snapshot has no
push field) reproduces the field unchanged. -/
theorem pushEvent_sticky_witness :
    dictGet [(ATTR_WS_STATE, PyVal.str "M")] ATTR_WS_STATE = some (PyVal.str "M") ∧
    ∃ d2, (coordRun
        { data := some [(ATTR_WS_STATE, PyVal.str "M")], lastUpdateSuccess := true,
          notifyCount := 1 }
        [CoordOp.poll [0, 1, 2, 3]
          (RawResp.resp 200 (some (PyVal.dict [("progress", PyVal.float 45)])))
          (RawResp.resp 200 (some (PyVal.dict [("working", PyVal.str "1")])))
          (RawResp.resp 200 (some (PyVal.dict [])))
          (RawResp.resp 200 (some (PyVal.dict [("type", PyVal.str "P2")])))]).data =
        some d2 ∧
      dictGet d2 ATTR_WS_STATE = some (PyVal.str "M") := by
  refine ⟨rfl, ?_⟩
  exact (pushEvent_sticky
    { data := some [(ATTR_WS_STATE, PyVal.str "M")], lastUpdateSuccess := true,
      notifyCount := 1 }
    [(ATTR_WS_STATE, PyVal.str "M")] (PyVal.str "M")
    [CoordOp.poll [0, 1, 2, 3]
      (RawResp.resp 200 (some (PyVal.dict [("progress", PyVal.float 45)])))
      (RawResp.resp 200 (some (PyVal.dict [("working", PyVal.str "1")])))
      (RawResp.resp 200 (some (PyVal.dict [])))
      (RawResp.resp 200 (some (PyVal.dict [("type", PyVal.str "P2")])))]
    rfl rfl
    (fun op hop => by
      simp only [List.mem_singleton] at hop
      exact ⟨_, _, _, _, _, hop⟩)).1

theorem asyncGetSnapshot_shape {order : List (Fin 4)} {r1 r2 r3 r4 : RawResp}
    {snap : PyDict}
    (h : asyncGetSnapshot order r1 r2 r3 r4 = Except.ok snap) :
    ∃ p w l s mt per, snap =
      [("progress", PyVal.float p), ("working", PyVal.int w), ("line", PyVal.int l),
       ("working_state", PyVal.str s), ("machine_type", PyVal.str mt),
       ("peripheral_status", per)] := by
  unfold asyncGetSnapshot at h
  cases hfe : firstErrAlong (subErrOf r1 r2 r3 r4) (order ++ [0, 1, 2, 3]) with
  | some e => rw [hfe] at h; cases h
  | none =>
  rw [hfe] at h
  cases h1 : asyncGetProgress r1 with
  | error e => simp only [h1, bindError] at h; cases h
  | ok v1 =>
  cases h2 : asyncGetWorkingState r2 with
  | error e => simp only [h1, bindOk, h2, bindError] at h; cases h
  | ok s2 =>
  cases h3 : asyncGetPeripheralStatus r3 with
  | error e => simp only [h1, h2, bindOk, h3, bindError] at h; cases h
  | ok v3 =>
  cases h4 : asyncGetMachineType r4 with
  | error e => simp only [h1, h2, h3, bindOk, h4, bindError] at h; cases h
  | ok s4 =>
  cases h5 : pyGet v1 "progress" with
  | error e => simp only [h1, h2, h3, h4, bindOk, h5, bindError] at h; cases h
  | ok o5 =>
  cases h6 : pyFloat (o5.getD (PyVal.float 0)) with
  | error e => simp only [h1, h2, h3, h4, h5, bindOk, h6, bindError] at h; cases h
  | ok p =>
  cases h7 : pyGet v1 "working" with
  | error e => simp only [h1, h2, h3, h4, h5, h6, bindOk, h7, bindError] at h; cases h
  | ok o7 =>
  cases h8 : pyInt (o7.getD (PyVal.int 0)) with
  | error e => simp only [h1, h2, h3, h4, h5, h6, h7, bindOk, h8, bindError] at h; cases h
  | ok w =>
  cases h9 : pyGet v1 "line" with
  | error e =>
      simp only [h1, h2, h3, h4, h5, h6, h7, h8, bindOk, h9, bindError] at h; cases h
  | ok o9 =>
  cases h10 : pyInt (o9.getD (PyVal.int 0)) with
  | error e =>
      simp only [h1, h2, h3, h4, h5, h6, h7, h8, h9, bindOk, h10, bindError, mapError] at h
      cases h
  | ok l =>
      simp only [h1, h2, h3, h4, h5, h6, h7, h8, h9, h10, bindOk, mapOk, pure,
        Except.pure, Except.ok.injEq] at h
      exact ⟨p, w, l, s2, s4, v3, h.symm⟩

theorem strMap_eval (s : String) :
    workingStateMapGetD (PyVal.str s) "unknown" =
      if s = "0" then "idle" else if s = "1" then "running_api"
      else if s = "2" then "running_button" else "unknown" := by
  simp only [workingStateMapGetD, WORKING_STATE_MAP, strMapLookup]
  by_cases h0 : s = "0"
  · subst h0; rfl
  by_cases h1 : s = "1"
  · subst h1; rfl
  by_cases h2 : s = "2"
  · subst h2; rfl
  have h0' : ¬("0" = s) := fun h => h0 h.symm
  have h1' : ¬("1" = s) := fun h => h1 h.symm
  have h2' : ¬("2" = s) := fun h => h2 h.symm
  simp [h0, h1, h2, h0', h1', h2', Option.getD]

/-- C4: on every successful poll, the snapshot's raw working-state value is
a string and the merged snapshot's label is that string mapped through the
fixed table — "0" to "idle", "1" to "running_api", "2" to "running_button",
anything else to "unknown". -/
theorem workingState_label_mapped (order : List (Fin 4)) (prev : Option PyDict)
    (r1 r2 r3 r4 : RawResp) (snap d : PyDict)
    (hsnap : asyncGetSnapshot order r1 r2 r3 r4 = Except.ok snap)
    (hupd : asyncUpdateData order prev r1 r2 r3 r4 = Except.ok d) :
    ∃ s, dictGet snap "working_state" = some (PyVal.str s) ∧
      dictGet d "working_state_label" = some (PyVal.str
        (if s = "0" then "idle" else if s = "1" then "running_api"
         else if s = "2" then "running_button" else "unknown")) := by
  obtain ⟨p, w, l, s, mt, per, hshape⟩ := asyncGetSnapshot_shape hsnap
  subst hshape
  rw [asyncUpdateData, hsnap] at hupd
  dsimp only at hupd
  refine ⟨s, by simp [dictGet], ?_⟩
  have hkey : dictGetD
      [("progress", PyVal.float p), ("working", PyVal.int w), ("line", PyVal.int l),
       ("working_state", PyVal.str s), ("machine_type", PyVal.str mt),
       ("peripheral_status", per)] "working_state" (PyVal.str "0") = PyVal.str s := by
    simp [dictGetD, dictGet]
  rw [hkey] at hupd
  cases prev with
  | none =>
      simp only [Except.ok.injEq] at hupd
      subst hupd
      rw [dictGet_dictSet_self, strMap_eval]
  | some pp =>
      by_cases hg : (pyTruthy (PyVal.dict pp) && dictHas pp ATTR_WS_STATE) = true
      · simp only [hg, if_true, Except.ok.injEq] at hupd
        subst hupd
        rw [dictGet_dictSet_ne _ _ _ _ (by simp [ATTR_WS_STATE]),
          dictGet_dictSet_self, strMap_eval]
      · simp only [hg, Bool.false_eq_true, if_false, Except.ok.injEq] at hupd
        subst hupd
        rw [dictGet_dictSet_self, strMap_eval]

/-- C4 witness: the theorem applied to a poll whose raw working-state is
the unmapped value "9", yielding the label "unknown". -/
theorem workingState_label_witness :
    asyncGetSnapshot [0, 1, 2, 3]
      (RawResp.resp 200 (some (PyVal.dict [])))
      (RawResp.resp 200 (some (PyVal.dict [("working", PyVal.str "9")])))
      (RawResp.resp 200 (some (PyVal.dict [])))
      (RawResp.resp 200 (some (PyVal.dict []))) =
      Except.ok [("progress", PyVal.float 0), ("working", PyVal.int 0),
        ("line", PyVal.int 0), ("working_state", PyVal.str "9"),
        ("machine_type", PyVal.str "Unknown xTool"), ("peripheral_status", PyVal.dict [])] ∧
    ∃ s, dictGet [("progress", PyVal.float 0), ("working", PyVal.int 0),
        ("line", PyVal.int 0), ("working_state", PyVal.str "9"),
        ("machine_type", PyVal.str "Unknown xTool"), ("peripheral_status", PyVal.dict [])]
        "working_state" = some (PyVal.str s) ∧
      dictGet [("progress", PyVal.float 0), ("working", PyVal.int 0),
        ("line", PyVal.int 0), ("working_state", PyVal.str "9"),
        ("machine_type", PyVal.str "Unknown xTool"), ("peripheral_status", PyVal.dict []),
        ("working_state_label", PyVal.str "unknown")]
        "working_state_label" = some (PyVal.str
          (if s = "0" then "idle" else if s = "1" then "running_api"
           else if s = "2" then "running_button" else "unknown")) := by
  refine ⟨rfl, ?_⟩
  exact workingState_label_mapped [0, 1, 2, 3] Option.none
    (RawResp.resp 200 (some (PyVal.dict [])))
    (RawResp.resp 200 (some (PyVal.dict [("working", PyVal.str "9")])))
    (RawResp.resp 200 (some (PyVal.dict [])))
    (RawResp.resp 200 (some (PyVal.dict []))) _ _ rfl rfl

theorem dispatchLoop_ok (respOf : String → RawResp) (action : String)
    (targets : List String)
    (hok : ∀ eid ∈ targets, ∃ b, asyncCncAction (respOf eid) = Except.ok b) :
    ∀ trace, dispatchLoop respOf action targets trace =
      (trace ++ expectedTrace action targets, Option.none) := by
  induction targets with
  | nil => intro trace; simp [dispatchLoop, expectedTrace]
  | cons eid rest ih =>
      intro trace
      obtain ⟨b, hb⟩ := hok eid (by simp)
      have hrest : ∀ e ∈ rest, ∃ b, asyncCncAction (respOf e) = Except.ok b :=
        fun e he => hok e (by simp [he])
      simp [dispatchLoop, hb, expectedTrace, ih hrest]

/-- C5: a successful control-action dispatch sends the `/cnc/data` control
request for each targeted entry and immediately follows each with an
out-of-cycle refresh request, in that order. -/
theorem controlAction_then_refresh (registry : List String)
    (respOf : String → RawResp) (entryId : Option String) (action : String)
    (targets : List String)
    (htargets : getTargetEntries registry entryId = Except.ok targets)
    (hok : ∀ eid ∈ targets, ∃ b, asyncCncAction (respOf eid) = Except.ok b) :
    handleJobService registry respOf entryId action =
      Except.ok (expectedTrace action targets) := by
  simp [handleJobService, htargets, dispatchLoop_ok respOf action targets hok []]

/-- C5 witness: the theorem applied to a "pause" dispatch targeting the one
loaded entry, whose device answers ok: the trace is the control request
followed immediately by the refresh request. -/
theorem controlAction_then_refresh_witness :
    getTargetEntries ["entry1"] (some "entry1") = Except.ok ["entry1"] ∧
    handleJobService ["entry1"]
      (fun _ => RawResp.resp 200 (some (PyVal.dict [("result", PyVal.str "ok")])))
      (some "entry1") "pause" =
      Except.ok [SvcEvent.cncRequest "entry1" "pause",
        SvcEvent.refreshRequest "entry1"] := by
  refine ⟨rfl, ?_⟩
  exact controlAction_then_refresh ["entry1"]
    (fun _ => RawResp.resp 200 (some (PyVal.dict [("result", PyVal.str "ok")])))
    (some "entry1") "pause" ["entry1"] rfl
    (fun eid _ => ⟨true, rfl⟩)

/-- C10: when the service call omits (or passes a falsy) target entry id
while entries are loaded, the action is dispatched to every loaded entry,
each followed by a refresh request, and no error is raised; an error is
raised exactly when no entries are loaded (`noEntries`) or the given entry
id is unknown (`unknownEntry`). -/
theorem service_target_resolution (registry : List String)
    (respOf : String → RawResp) (action : String) :
    (registry = [] → ∀ entryId, handleJobService registry respOf entryId action =
      Except.error SvcErr.noEntries) ∧
    (registry ≠ [] → ∀ eid, eid ≠ "" → eid ∉ registry →
      handleJobService registry respOf (some eid) action =
        Except.error (SvcErr.unknownEntry eid)) ∧
    (registry ≠ [] →
      (∀ e ∈ registry, ∃ b, asyncCncAction (respOf e) = Except.ok b) →
      handleJobService registry respOf Option.none action =
        Except.ok (expectedTrace action registry)) := by
  refine ⟨?_, ?_, ?_⟩
  · intro hreg entryId
    subst hreg
    simp [handleJobService, getTargetEntries]
  · intro hreg eid hne hmem
    have hie : registry.isEmpty = false := by
      cases registry with
      | nil => exact absurd rfl hreg
      | cons a t => rfl
    simp [handleJobService, getTargetEntries, hie, hne, hmem]
  · intro hreg hok
    have hie : registry.isEmpty = false := by
      cases registry with
      | nil => exact absurd rfl hreg
      | cons a t => rfl
    simp [handleJobService, getTargetEntries, hie,
      dispatchLoop_ok respOf action registry hok []]

/-- C10 witness: the theorem applied to a target-less "stop" call with two
loaded entries, both answering ok: both entries are dispatched, each
followed by its refresh. -/
theorem service_target_resolution_witness :
    (["e1", "e2"] : List String) ≠ [] ∧
    handleJobService ["e1", "e2"]
      (fun _ => RawResp.resp 200 (some (PyVal.dict [("result", PyVal.str "ok")])))
      Option.none "stop" =
      Except.ok [SvcEvent.cncRequest "e1" "stop", SvcEvent.refreshRequest "e1",
        SvcEvent.cncRequest "e2" "stop", SvcEvent.refreshRequest "e2"] := by
  refine ⟨by decide, ?_⟩
  exact (service_target_resolution ["e1", "e2"]
    (fun _ => RawResp.resp 200 (some (PyVal.dict [("result", PyVal.str "ok")])))
    "stop").2.2 (by decide) (fun e _ => ⟨true, rfl⟩)

/-- C8: `async_stop_ws` never returns with the background task still
running.  After it returns the client holds no task reference, the stop
signal is set, and — whatever await point the task was at, including an
in-flight connection attempt or receive wait — the joined task has reached
the `finished` phase, because the requested cancellation is delivered at
the await point and no handler in `_ws_loop` catches `CancelledError`. -/
theorem stopWs_awaits_termination (connOk : Bool) (frame : Option WsFrame)
    (st : ClientState) :
    (stopWs connOk frame st).1.wsTask = Option.none ∧
    (stopWs connOk frame st).1.wsStopSet = true ∧
    (st.wsTask = Option.none → (stopWs connOk frame st).2 = Option.none) ∧
    ∀ t, st.wsTask = some t → ∃ t2, (stopWs connOk frame st).2 = some t2 ∧
      t2.phase = WsPhase.finished := by
  refine ⟨?_, ?_, ?_, ?_⟩
  · cases h : st.wsTask <;> simp [stopWs, h]
  · cases h : st.wsTask <;> simp [stopWs, h]
  · intro h
    simp [stopWs, h]
  · intro t ht
    simp only [stopWs, ht]
    refine ⟨wsLoopStep connOk frame true { t with cancelRequested := true }, rfl, ?_⟩
    by_cases hfin : t.phase = WsPhase.finished
    · simp [wsLoopStep, hfin]
    · simp [wsLoopStep, hfin]

/-- C8 witness: the theorem applied to a client whose task is waiting for
the next inbound frame. -/
theorem stopWs_awaits_termination_witness :
    ({ wsTask := some { phase := WsPhase.receiving, cancelRequested := false },
       wsStopSet := false, tasksSpawned := 1 } : ClientState).wsTask =
      some { phase := WsPhase.receiving, cancelRequested := false } ∧
    ∃ t2, (stopWs true (some (WsFrame.text "evt"))
      { wsTask := some { phase := WsPhase.receiving, cancelRequested := false },
        wsStopSet := false, tasksSpawned := 1 }).2 = some t2 ∧
      t2.phase = WsPhase.finished := by
  refine ⟨rfl, ?_⟩
  exact (stopWs_awaits_termination true (some (WsFrame.text "evt"))
    { wsTask := some { phase := WsPhase.receiving, cancelRequested := false },
      wsStopSet := false, tasksSpawned := 1 }).2.2.2
    { phase := WsPhase.receiving, cancelRequested := false } rfl

/-- C9: `async_start_ws` is idempotent.  While a task exists and is not
done, calling it again changes nothing (no second task is spawned, the
existing task and the stop signal are untouched); otherwise it clears the
stop signal and spawns exactly one fresh background task. -/
theorem startWs_idempotent (st : ClientState) :
    (∀ t, st.wsTask = some t → t.phase ≠ WsPhase.finished → startWs st = st) ∧
    ((st.wsTask = Option.none ∨
        ∃ t, st.wsTask = some t ∧ t.phase = WsPhase.finished) →
      (startWs st).wsStopSet = false ∧
      (startWs st).wsTask =
        some { phase := WsPhase.connecting, cancelRequested := false } ∧
      (startWs st).tasksSpawned = st.tasksSpawned + 1) := by
  constructor
  · intro t ht hrun
    simp [startWs, ht, hrun]
  · intro h
    rcases h with h | ⟨t, ht, hfin⟩
    · simp [startWs, h]
    · simp [startWs, ht, hfin]

/-- C9 witness: the theorem applied once to a running task (no-op) — shown
through the spawn count — and once to a client with no task (fresh spawn). -/
theorem startWs_idempotent_witness :
    startWs
        ({ wsTask := some { phase := WsPhase.receiving, cancelRequested := false },
           wsStopSet := false, tasksSpawned := 1 } : ClientState) =
      ({ wsTask := some { phase := WsPhase.receiving, cancelRequested := false },
         wsStopSet := false, tasksSpawned := 1 } : ClientState) ∧
    (startWs
      ({ wsTask := Option.none, wsStopSet := true, tasksSpawned := 0 } :
        ClientState)).tasksSpawned = 1 := by
  constructor
  · exact (startWs_idempotent
      { wsTask := some { phase := WsPhase.receiving, cancelRequested := false },
        wsStopSet := false, tasksSpawned := 1 }).1
      { phase := WsPhase.receiving, cancelRequested := false } rfl (by decide)
  · exact ((startWs_idempotent
      { wsTask := Option.none, wsStopSet := true, tasksSpawned := 0 }).2
      (Or.inl rfl)).2.2

theorem handleDatagram_benign (rid : Int) (found : List (String × Device))
    {body : Option PyVal} (hb : benignBody body = true) :
    handleDatagram rid found body = Except.ok
      (match acceptedEntry rid body with
       | Option.none => found
       | some e => upsert found e.1 e.2) := by
  cases body with
  | none => rfl
  | some v =>
      cases v with
      | dict kvs =>
          simp only [handleDatagram, acceptedEntry]
          cases h1 : pyEqInt (dictGetD kvs "requestId" PyVal.none) rid with
          | false => simp
          | true =>
              by_cases h2 : pyStrip (pyStr (dictGetD kvs "ip" (PyVal.str ""))) = ""
              · simp [h2]
              · simp [h2]
      | none => simp [benignBody] at hb
      | bool b => simp [benignBody] at hb
      | int n => simp [benignBody] at hb
      | float q => simp [benignBody] at hb
      | str s => simp [benignBody] at hb
      | list xs => simp [benignBody] at hb

theorem acceptedEntry_host {rid : Int} {b : Option PyVal} {k : String} {dev : Device}
    (h : acceptedEntry rid b = some (k, dev)) : dev.host = k := by
  cases b with
  | none => simp [acceptedEntry] at h
  | some v =>
      cases v with
      | dict kvs =>
          simp only [acceptedEntry] at h
          cases h1 : pyEqInt (dictGetD kvs "requestId" PyVal.none) rid with
          | false => rw [h1] at h; simp at h
          | true =>
              rw [h1] at h
              by_cases h2 : pyStrip (pyStr (dictGetD kvs "ip" (PyVal.str ""))) = ""
              · simp [h2] at h
              · simp only [h2, Bool.not_true, Bool.false_eq_true, if_false, if_neg h2,
                  Option.some.injEq, Prod.mk.injEq] at h
                obtain ⟨hk, hdev⟩ := h
                rw [← hdev, ← hk]
      | none => simp [acceptedEntry] at h
      | bool b => simp [acceptedEntry] at h
      | int n => simp [acceptedEntry] at h
      | float q => simp [acceptedEntry] at h
      | str s => simp [acceptedEntry] at h
      | list xs => simp [acceptedEntry] at h

theorem lookupA_upsert_self (m : List (String × Device)) (k : String) (dev : Device) :
    lookupA (upsert m k dev) k = some dev := by
  induction m with
  | nil => simp [upsert, lookupA]
  | cons e rest ih =>
      obtain ⟨k0, d0⟩ := e
      by_cases h : k0 = k
      · simp [upsert, lookupA, h]
      · simp [upsert, lookupA, h, ih]

theorem lookupA_upsert_ne (m : List (String × Device)) (k k2 : String) (dev : Device)
    (h : k ≠ k2) : lookupA (upsert m k dev) k2 = lookupA m k2 := by
  induction m with
  | nil => simp [upsert, lookupA, h]
  | cons e rest ih =>
      obtain ⟨k0, d0⟩ := e
      by_cases h0 : k0 = k
      · subst h0; simp [upsert, lookupA, h]
      · simp [upsert, lookupA, h0, ih]

theorem keys_upsert_mem (m : List (String × Device)) (k : String) (dev : Device)
    (h : k ∈ m.map Prod.fst) : (upsert m k dev).map Prod.fst = m.map Prod.fst := by
  induction m with
  | nil => simp at h
  | cons e rest ih =>
      obtain ⟨k0, d0⟩ := e
      by_cases h0 : k0 = k
      · simp [upsert, h0]
      · have hk : k ∈ rest.map Prod.fst := by
          simp only [List.map_cons, List.mem_cons] at h
          rcases h with h | h
          · exact absurd h.symm h0
          · exact h
        simp [upsert, h0, ih hk]

theorem keys_upsert_not_mem (m : List (String × Device)) (k : String) (dev : Device)
    (h : k ∉ m.map Prod.fst) :
    (upsert m k dev).map Prod.fst = m.map Prod.fst ++ [k] := by
  induction m with
  | nil => simp [upsert]
  | cons e rest ih =>
      obtain ⟨k0, d0⟩ := e
      have h0 : k0 ≠ k := by
        intro hc
        exact h (by simp [hc])
      have hk : k ∉ rest.map Prod.fst := fun hc => h (by simp [hc])
      simp [upsert, h0, ih hk]

theorem nodup_keys_upsert (m : List (String × Device)) (k : String) (dev : Device)
    (h : (m.map Prod.fst).Nodup) : ((upsert m k dev).map Prod.fst).Nodup := by
  by_cases hk : k ∈ m.map Prod.fst
  · rw [keys_upsert_mem m k dev hk]; exact h
  · rw [keys_upsert_not_mem m k dev hk]
    simp [List.nodup_append, h, hk]

theorem hostConsistent_upsert {m : List (String × Device)} {k : String} {dev : Device}
    (h : hostConsistent m) (hd : dev.host = k) : hostConsistent (upsert m k dev) := by
  unfold hostConsistent at h ⊢
  induction m with
  | nil =>
      intro e he
      simp only [upsert, List.mem_singleton] at he
      subst he; exact hd
  | cons e0 rest ih =>
      obtain ⟨k0, d0⟩ := e0
      have hrest : ∀ e ∈ rest, Device.host e.2 = e.1 := fun e he => h e (by simp [he])
      by_cases h0 : k0 = k
      · intro e he
        simp only [upsert, h0, if_true, List.mem_cons] at he
        rcases he with he | he
        · subst he; exact hd
        · exact hrest e he
      · intro e he
        simp only [upsert, h0, if_false, List.mem_cons] at he
        rcases he with he | he
        · subst he; exact h (k0, d0) (by simp)
        · exact ih hrest e he

theorem findByHost_eq_lookupA (m : List (String × Device)) (h : hostConsistent m)
    (key : String) : findByHost (m.map Prod.snd) key = lookupA m key := by
  unfold hostConsistent at h
  induction m with
  | nil => rfl
  | cons e rest ih =>
      obtain ⟨k0, d0⟩ := e
      have hd0 : d0.host = k0 := h (k0, d0) (by simp)
      have hrest : ∀ e ∈ rest, Device.host e.2 = e.1 := fun e he => h e (by simp [he])
      by_cases h0 : k0 = key
      · simp [findByHost, lookupA, List.find?, hd0, h0]
      · have : (d0.host == key) = false := by
          simp [hd0, h0]
        simp only [findByHost, lookupA, List.map_cons, List.find?, this, if_neg h0]
        exact ih hrest

theorem foldUp_append (m : List (String × Device)) (acc : List (String × Device))
    (e : String × Device) :
    foldUp m (acc ++ [e]) = upsert (foldUp m acc) e.1 e.2 := by
  simp [foldUp, List.foldl_append]

theorem lastFor_append (acc : List (String × Device)) (e : String × Device)
    (key : String) :
    lastFor (acc ++ [e]) key =
      if e.1 = key then some e.2 else lastFor acc key := by
  by_cases h : e.1 = key
  · simp [lastFor, List.filter_append, h]
  · simp [lastFor, List.filter_append, h]

theorem lookupA_foldUp (acc : List (String × Device)) :
    ∀ (m : List (String × Device)) (key : String),
      lookupA (foldUp m acc) key =
        match lastFor acc key with
        | some d => some d
        | Option.none => lookupA m key := by
  induction acc using List.reverseRecOn with
  | nil => intro m key; simp [foldUp, lastFor]
  | append_singleton acc e ih =>
      intro m key
      rw [foldUp_append, lastFor_append]
      by_cases h : e.1 = key
      · rw [← h, lookupA_upsert_self]
        simp [h]
      · rw [lookupA_upsert_ne _ _ _ _ h, ih]
        simp [h]

theorem foldUp_nodup (acc : List (String × Device)) :
    ∀ m, ((m.map Prod.fst).Nodup) → (((foldUp m acc).map Prod.fst).Nodup) := by
  induction acc using List.reverseRecOn with
  | nil => intro m h; simpa [foldUp] using h
  | append_singleton acc e ih =>
      intro m h
      rw [foldUp_append]
      exact nodup_keys_upsert _ _ _ (ih m h)

theorem foldUp_hostConsistent (acc : List (String × Device))
    (hacc : ∀ e ∈ acc, Device.host e.2 = e.1) :
    ∀ m, hostConsistent m → hostConsistent (foldUp m acc) := by
  induction acc using List.reverseRecOn with
  | nil => intro m h; simpa [foldUp] using h
  | append_singleton acc e ih =>
      intro m h
      rw [foldUp_append]
      have he : Device.host e.2 = e.1 := hacc e (by simp)
      have hrest : ∀ x ∈ acc, Device.host x.2 = x.1 := fun x hx => hacc x (by simp [hx])
      exact hostConsistent_upsert (ih hrest m h) he

theorem discoverLoop_benign (rid : Int) (dgs : List (Option PyVal))
    (hb : ∀ b ∈ dgs, benignBody b = true) :
    ∀ found, discoverLoop rid found (dgs.map RecvEvent.datagram) =
      Except.ok ((foldUp found (dgs.filterMap (acceptedEntry rid))).map Prod.snd) := by
  induction dgs with
  | nil => intro found; simp [discoverLoop, foldUp]
  | cons b rest ih =>
      intro found
      have hbb : benignBody b = true := hb b (by simp)
      have hrest : ∀ x ∈ rest, benignBody x = true := fun x hx => hb x (by simp [hx])
      simp only [List.map_cons, discoverLoop, handleDatagram_benign rid found hbb]
      cases hacc : acceptedEntry rid b with
      | none =>
          simp only [List.filterMap_cons, hacc]
          exact ih hrest found
      | some e =>
          simp only [List.filterMap_cons, hacc]
          have : foldUp found (e :: rest.filterMap (acceptedEntry rid)) =
              foldUp (upsert found e.1 e.2) (rest.filterMap (acceptedEntry rid)) := by
            simp [foldUp]
          rw [this]
          exact ih hrest (upsert found e.1 e.2)

/-- C6 (amended): for every received datagram sequence in which each
datagram either fails to decode or decodes to a JSON object, discovery
discards mismatched-requestId, empty-ip and undecodable datagrams, and the
result holds exactly one device per distinct host — the one described by
the last accepted datagram for that host. -/
theorem discovery_dedupes_by_host (rid : Int) (dgs : List (Option PyVal))
    (hb : ∀ b ∈ dgs, benignBody b = true) :
    ∃ devs, discoverDevicesSync rid true true (dgs.map RecvEvent.datagram) =
        Except.ok devs ∧
      (devs.map Device.host).Nodup ∧
      ∀ key, findByHost devs key = lastAcceptedFor rid dgs key := by
  have hacc : ∀ e ∈ dgs.filterMap (acceptedEntry rid), Device.host e.2 = e.1 := by
    intro e he
    simp only [List.mem_filterMap] at he
    obtain ⟨b, hbmem, hb2⟩ := he
    obtain ⟨k, dev⟩ := e
    exact acceptedEntry_host hb2
  have hnilcons : hostConsistent ([] : List (String × Device)) := by
    unfold hostConsistent
    intro e he
    simp at he
  have hcons : hostConsistent (foldUp [] (dgs.filterMap (acceptedEntry rid))) :=
    foldUp_hostConsistent _ hacc [] hnilcons
  refine ⟨(foldUp [] (dgs.filterMap (acceptedEntry rid))).map Prod.snd, ?_, ?_, ?_⟩
  · simp [discoverDevicesSync, discoverLoop_benign rid dgs hb []]
  · have hkeys :
        ((foldUp [] (dgs.filterMap (acceptedEntry rid))).map Prod.snd).map Device.host =
          (foldUp [] (dgs.filterMap (acceptedEntry rid))).map Prod.fst := by
      rw [List.map_map]
      exact List.map_congr_left (fun e he => hcons e he)
    rw [hkeys]
    exact foldUp_nodup _ [] (by simp)
  · intro key
    rw [findByHost_eq_lookupA _ hcons key, lookupA_foldUp]
    unfold lastAcceptedFor
    cases lastFor (dgs.filterMap (acceptedEntry rid)) key <;> simp [lookupA]

/-- C6 counterexample to the claim as stated: a datagram decoding to the
non-object JSON value 5 has a requestId that does not match, yet instead of
being discarded it makes `message.get` raise an `AttributeError` that no
handler catches, so discovery fails rather than returning a result. -/
theorem discovery_crashes_on_nonobject_json :
    discoverDevicesSync 123456 true true [RecvEvent.datagram (some (PyVal.int 5))] =
      Except.error PyErr.attributeError := rfl

/-- C6 witness: the theorem applied to two advertisements from the same
host with different names; one device remains, from the later message. -/
theorem discovery_dedupes_witness :
    (∀ b ∈ ([some (PyVal.dict
          [("requestId", PyVal.int 11), ("ip", PyVal.str "10.0.0.5"),
           ("name", PyVal.str "A")]),
        some (PyVal.dict
          [("requestId", PyVal.int 11), ("ip", PyVal.str "10.0.0.5"),
           ("name", PyVal.str "B")])] : List (Option PyVal)),
      benignBody b = true) ∧
    ∃ devs, discoverDevicesSync 11 true true
        (([some (PyVal.dict
            [("requestId", PyVal.int 11), ("ip", PyVal.str "10.0.0.5"),
             ("name", PyVal.str "A")]),
          some (PyVal.dict
            [("requestId", PyVal.int 11), ("ip", PyVal.str "10.0.0.5"),
             ("name", PyVal.str "B")])] : List (Option PyVal)).map RecvEvent.datagram) =
        Except.ok devs ∧
      (devs.map Device.host).Nodup ∧
      ∀ key, findByHost devs key = lastAcceptedFor 11
        [some (PyVal.dict
          [("requestId", PyVal.int 11), ("ip", PyVal.str "10.0.0.5"),
           ("name", PyVal.str "A")]),
         some (PyVal.dict
          [("requestId", PyVal.int 11), ("ip", PyVal.str "10.0.0.5"),
           ("name", PyVal.str "B")])] key := by
  refine ⟨by decide, ?_⟩
  exact discovery_dedupes_by_host 11 _ (by decide)

theorem discoverLoop_osError (rid : Int) (post : List RecvEvent) :
    ∀ (pre : List (Option PyVal)), (∀ b ∈ pre, benignBody b = true) → ∀ found,
      discoverLoop rid found
        (pre.map RecvEvent.datagram ++ RecvEvent.osError :: post) = Except.ok [] := by
  intro pre
  induction pre with
  | nil => intro _ found; simp [discoverLoop]
  | cons b rest ih =>
      intro hb found
      have hbb : benignBody b = true := hb b (by simp)
      simp only [List.map_cons, List.cons_append, discoverLoop,
        handleDatagram_benign rid found hbb]
      exact ih (fun x hx => hb x (by simp [hx])) _

/-- C7: discovery degrades to an empty result instead of raising.  An
`OSError` from `bind` or from `sendto` yields `[]`; an `OSError` at any
`recvfrom` (after any run of well-formed datagrams) likewise yields `[]`;
no discovery-specific error is ever propagated to the caller. -/
theorem discovery_swallows_socket_errors (rid : Int) :
    (∀ (sendOk : Bool) (events : List RecvEvent),
      discoverDevicesSync rid false sendOk events = Except.ok []) ∧
    (∀ events : List RecvEvent,
      discoverDevicesSync rid true false events = Except.ok []) ∧
    (∀ (pre : List (Option PyVal)) (post : List RecvEvent),
      (∀ b ∈ pre, benignBody b = true) →
      discoverDevicesSync rid true true
        (pre.map RecvEvent.datagram ++ RecvEvent.osError :: post) = Except.ok []) := by
  refine ⟨fun sendOk events => rfl, fun events => rfl, ?_⟩
  intro pre post hb
  simpa [discoverDevicesSync] using discoverLoop_osError rid post pre hb []

/-- C7 witness: the theorem applied to a run where one well-formed datagram
arrives and the next `recvfrom` raises an `OSError`: the result is the
empty list, not an exception. -/
theorem discovery_swallows_socket_errors_witness :
    (∀ b ∈ ([some (PyVal.dict [("requestId", PyVal.int 99)])] : List (Option PyVal)),
      benignBody b = true) ∧
    discoverDevicesSync 7 true true
      (([some (PyVal.dict [("requestId", PyVal.int 99)])] :
          List (Option PyVal)).map RecvEvent.datagram ++
        RecvEvent.osError :: [RecvEvent.timeout]) = Except.ok [] := by
  refine ⟨by decide, ?_⟩
  exact (discovery_swallows_socket_errors 7).2.2
    [some (PyVal.dict [("requestId", PyVal.int 99)])] [RecvEvent.timeout] (by decide)

/-- C3 witness: the theorem applied to a timed-out exchange. -/
theorem httpMethods_fail_witness :
    httpFails RawResp.timeout = true ∧
    asyncPing RawResp.timeout = Except.error (PyErr.apiError (failCause RawResp.timeout)) := by
  refine ⟨rfl, ?_⟩
  exact (httpMethods_fail_with_protocolError RawResp.timeout rfl).1

end XTool
